import Mathlib

/-!
Verification of the Nova pharmaceutical-outreach agent repository.

Shallow embedding of the repository's Python source:
- src/agent.py : NovaAgent (HCP store queries, contact-record updates,
  agent-executor configuration, run boundary)
- src/app.py : dashboard adapter (process_message)
- src/tools/record_tool.py : update_kartei, get_outreach_candidates
- src/tools/google_maps_finder.py : GoogleMapsFinder.search_and_get_details
- src/tools/nova.py : PubMedSearchTool.search / _parse_article

External collaborators (the OpenAI model, the Google Maps client, the
NCBI Entrez endpoints) are modelled as oracle functions passed in as
arguments; their error behaviour is an Except value.  The orchestration
loop itself lives in the LangChain framework, outside this repository,
so it is modelled from the specification (see the doc comments below).
-/

namespace Nova

/-- One HCP record of the contact store (a row of data/hcp_combined.csv,
as read into `self.hcp_data` in src/agent.py). -/
structure HCP where
  hcp_id : Int
  name : String
  specialty : String
  city : String
  preferred_channel : String
  contacted : Bool
deriving DecidableEq, Repr

/-- The successive pandas boolean selections of
NovaAgent._query_hcp_database (src/agent.py lines 131-137): each filter
is applied only when the argument is non-empty / not None, matching
Python truthiness of the default arguments.  Pandas boolean selection
preserves row order and compares strings exactly, which List.filter
mirrors. -/
def queryFiltered (store : List HCP) (specialty city : String)
    (contacted : Option Bool) : List HCP :=
  let df : List HCP := store
  let df : List HCP :=
    if specialty ≠ "" then df.filter (fun r => r.specialty == specialty) else df
  let df : List HCP :=
    if city ≠ "" then df.filter (fun r => r.city == city) else df
  match contacted with
  | some b => df.filter (fun r => r.contacted == b)
  | none => df

/-- Embedding of NovaAgent._query_hcp_database (src/agent.py lines
130-138): after the filters, returns the first 10 rows as records
(df.head(10).to_dict), or the string literal from the source when the
filtered frame is empty. -/
def query_hcp_database (store : List HCP) (specialty : String := "")
    (city : String := "") (contacted : Option Bool := none) :
    Sum (List HCP) String :=
  let df : List HCP := queryFiltered store specialty city contacted
  if df.isEmpty then Sum.inr "No HCPs found." else Sum.inl (df.take 10)

/-- The combined row predicate the three conditional filters amount to
(one boolean per row; the conjunct order matches how List.filter_filter
stacks successive filters). -/
def matchesb (specialty city : String) (contacted : Option Bool) (r : HCP) : Bool :=
  (match contacted with
   | some b => r.contacted == b
   | none => true) &&
  ((if city ≠ "" then r.city == city else true) &&
   (if specialty ≠ "" then r.specialty == specialty else true))

/-- The row-wise effect of the pandas assignment
hcp_data.loc[hcp_data[hcp_id] == hcp_id, contacted] = True
in NovaAgent._update_contact_record: rows whose hcp_id matches get their
contacted cell set to True, all other rows are untouched. -/
def markContactedRow (hcp_id : Int) (r : HCP) : HCP :=
  if r.hcp_id == hcp_id then { r with contacted := true } else r

/-- Embedding of NovaAgent._update_contact_record (src/agent.py lines
123-128).  The Python mutates the frame in place and rewrites the CSV; we
return the new store, the returned message, and whether the CSV file was
written (to_csv reached). -/
def update_contact_record (store : List HCP) (hcp_id : Int) :
    List HCP × String × Bool :=
  if store.any (fun r => r.hcp_id == hcp_id) then
    (store.map (markContactedRow hcp_id),
     "HCP " ++ toString hcp_id ++ " marked as contacted successfully.", true)
  else
    (store, "HCP ID " ++ toString hcp_id ++ " not found.", false)

/-- A fixture contact-store row used by concrete instantiations. -/
def fixtureRow (i : Nat) : HCP := ⟨(i : Int), "N", "C", "B", "email", false⟩

end Nova

namespace Nova

/-- C4: with both a specialty and a city filter, every returned record
matches both filters by exact string equality, and the returned list is a
sublist of the store (iteration order preserved). -/
theorem query_both_filters_sound (store : List HCP) (sp c : String)
    (hsp : sp ≠ "") (hc : c ≠ "") (l : List HCP)
    (h : query_hcp_database store sp c none = Sum.inl l) :
    (∀ r ∈ l, r.specialty = sp ∧ r.city = c) ∧ l.Sublist store := by
  simp only [query_hcp_database, queryFiltered] at h
  rw [if_pos hsp, if_pos hc] at h
  split at h
  · exact absurd h (by simp)
  · injection h with h
    subst h
    constructor
    · intro r hr
      have hr1 := List.mem_of_mem_take hr
      have hr2 := List.mem_filter.mp hr1
      have hr3 := List.mem_filter.mp hr2.1
      exact ⟨eq_of_beq hr3.2, eq_of_beq hr2.2⟩
    · exact ((List.take_sublist _ _).trans (List.filter_sublist _)).trans
        (List.filter_sublist _)

theorem query_both_filters_sound_witness :
    ("Cardiology" : String) ≠ "" ∧ ("Berlin" : String) ≠ "" ∧
    query_hcp_database
      [⟨1, "A", "Cardiology", "Berlin", "email", false⟩,
       ⟨2, "B", "Oncology", "Berlin", "email", false⟩]
      "Cardiology" "Berlin" none =
      Sum.inl [⟨1, "A", "Cardiology", "Berlin", "email", false⟩] ∧
    ((∀ r ∈ [(⟨1, "A", "Cardiology", "Berlin", "email", false⟩ : HCP)],
        r.specialty = "Cardiology" ∧ r.city = "Berlin") ∧
      List.Sublist [(⟨1, "A", "Cardiology", "Berlin", "email", false⟩ : HCP)]
        [⟨1, "A", "Cardiology", "Berlin", "email", false⟩,
         ⟨2, "B", "Oncology", "Berlin", "email", false⟩]) :=
  ⟨by decide, by decide, by decide,
    query_both_filters_sound _ _ _ (by decide) (by decide) _ (by decide)⟩

/-- The conditional filter chain equals a single filter by the combined
row predicate. -/
theorem queryFiltered_eq_filter (store : List HCP) (sp c : String)
    (ct : Option Bool) :
    queryFiltered store sp c ct = store.filter (fun r => matchesb sp c ct r) := by
  rcases ct with _ | b <;> by_cases hsp : sp = "" <;> by_cases hc : c = "" <;>
    simp [queryFiltered, matchesb, hsp, hc, List.filter_filter]

/-- C10: for every filter combination the query returns at most the first
10 rows matching the combined predicate, and when no row matches it
returns the string literal rather than an empty record list. -/
theorem query_cap_and_not_found (store : List HCP) (sp c : String)
    (ct : Option Bool) :
    (∀ l, query_hcp_database store sp c ct = Sum.inl l →
        l = (store.filter (fun r => matchesb sp c ct r)).take 10 ∧
          l.length ≤ 10) ∧
    (store.filter (fun r => matchesb sp c ct r) = [] →
        query_hcp_database store sp c ct = Sum.inr "No HCPs found.") := by
  have he := queryFiltered_eq_filter store sp c ct
  constructor
  · intro l hl
    simp only [query_hcp_database, he] at hl
    split at hl
    · exact absurd hl (by simp)
    · injection hl with hl
      exact ⟨hl.symm, hl ▸ List.length_take_le 10 _⟩
  · intro hemp
    simp [query_hcp_database, he, hemp]

theorem query_cap_and_not_found_witness :
    (((List.range 12).map fixtureRow).filter
        (fun r => matchesb "C" "B" none r) = [] → False) ∧
    ([(⟨1, "A", "Cardiology", "Berlin", "email", false⟩ : HCP)].filter
        (fun r => matchesb "Oncology" "Berlin" none r) = []) ∧
    ((((List.range 12).map fixtureRow).filter
        (fun r => matchesb "C" "B" none r)).take 10).length ≤ 10 ∧
    query_hcp_database
      [(⟨1, "A", "Cardiology", "Berlin", "email", false⟩ : HCP)]
      "Oncology" "Berlin" none = Sum.inr "No HCPs found." :=
  ⟨by decide, by decide,
    ((query_cap_and_not_found ((List.range 12).map fixtureRow)
        "C" "B" none).1 _ (by decide)).2,
    (query_cap_and_not_found
        [(⟨1, "A", "Cardiology", "Berlin", "email", false⟩ : HCP)]
        "Oncology" "Berlin" none).2 (by decide)⟩

/-- Updating the contacted cell never changes a row's hcp_id. -/
theorem markContactedRow_hcp_id (id : Int) (r : HCP) :
    (markContactedRow id r).hcp_id = r.hcp_id := by
  unfold markContactedRow
  by_cases h : r.hcp_id = id <;> simp [h]

/-- The row update is idempotent. -/
theorem markContactedRow_idem (id : Int) (r : HCP) :
    markContactedRow id (markContactedRow id r) = markContactedRow id r := by
  unfold markContactedRow
  by_cases h : r.hcp_id = id <;> simp [h]

/-- C5: marking a nonexistent id returns the not-found message and leaves
the store unchanged, with no CSV write (the Bool component). -/
theorem update_contact_record_not_found (store : List HCP) (id : Int)
    (h : ∀ r ∈ store, r.hcp_id ≠ id) :
    update_contact_record store id =
      (store, "HCP ID " ++ toString id ++ " not found.", false) := by
  have hany : store.any (fun r => r.hcp_id == id) = false := by
    simp only [List.any_eq_false]
    intro r hr
    simpa using h r hr
  simp [update_contact_record, hany]

theorem update_contact_record_not_found_witness :
    (∀ r ∈ [(⟨1, "A", "Cardiology", "Berlin", "email", false⟩ : HCP)],
        r.hcp_id ≠ 99) ∧
    update_contact_record
        [(⟨1, "A", "Cardiology", "Berlin", "email", false⟩ : HCP)] 99 =
      ([(⟨1, "A", "Cardiology", "Berlin", "email", false⟩ : HCP)],
       "HCP ID " ++ toString (99 : Int) ++ " not found.", false) :=
  ⟨by decide,
    update_contact_record_not_found
      [(⟨1, "A", "Cardiology", "Berlin", "email", false⟩ : HCP)] 99
      (by decide)⟩

/-- C6: on an id present in the store, a second markContacted call still
succeeds, the record's contacted flag is true, and the store after the
second call equals the store after the first. -/
theorem update_contact_record_idempotent (store : List HCP) (id : Int)
    (h : ∃ r ∈ store, r.hcp_id = id) :
    ∃ s1,
      update_contact_record store id =
        (s1, "HCP " ++ toString id ++ " marked as contacted successfully.", true) ∧
      update_contact_record s1 id =
        (s1, "HCP " ++ toString id ++ " marked as contacted successfully.", true) ∧
      ∀ r ∈ s1, r.hcp_id = id → r.contacted = true := by
  obtain ⟨r0, hr0, hid0⟩ := h
  have hany : store.any (fun r => r.hcp_id == id) = true := by
    simp only [List.any_eq_true]
    exact ⟨r0, hr0, by simp [hid0]⟩
  have hany2 :
      (store.map (markContactedRow id)).any (fun r => r.hcp_id == id) = true := by
    simp only [List.any_eq_true]
    exact ⟨markContactedRow id r0, List.mem_map_of_mem _ hr0,
      by rw [markContactedRow_hcp_id, hid0]; simp⟩
  refine ⟨store.map (markContactedRow id), ?_, ?_, ?_⟩
  · simp [update_contact_record, hany]
  · have hmm : (store.map (markContactedRow id)).map (markContactedRow id) =
        store.map (markContactedRow id) := by
      rw [List.map_map]
      exact List.map_congr_left (fun a _ => markContactedRow_idem id a)
    simp [update_contact_record, hany2, hmm]
  · intro r hr hrid
    obtain ⟨a, _, rfl⟩ := List.mem_map.mp hr
    have hrid2 : a.hcp_id = id := by
      rw [markContactedRow_hcp_id] at hrid
      exact hrid
    simp [markContactedRow, hrid2]

theorem update_contact_record_idempotent_witness :
    (∃ r ∈ [(⟨1, "A", "Cardiology", "Berlin", "email", false⟩ : HCP)],
        r.hcp_id = 1) ∧
    ∃ s1,
      update_contact_record
          [(⟨1, "A", "Cardiology", "Berlin", "email", false⟩ : HCP)] 1 =
        (s1, "HCP " ++ toString (1 : Int) ++ " marked as contacted successfully.", true) ∧
      update_contact_record s1 1 =
        (s1, "HCP " ++ toString (1 : Int) ++ " marked as contacted successfully.", true) ∧
      ∀ r ∈ s1, r.hcp_id = 1 → r.contacted = true :=
  ⟨⟨⟨1, "A", "Cardiology", "Berlin", "email", false⟩, by decide, rfl⟩,
    update_contact_record_idempotent
      [(⟨1, "A", "Cardiology", "Berlin", "email", false⟩ : HCP)] 1
      ⟨⟨1, "A", "Cardiology", "Berlin", "email", false⟩, by decide, rfl⟩⟩

end Nova

namespace Kartei

/-- One row of the kartei frame (src/tools/record_tool.py).  The same
shape serves for a scraped entry: contacted = none models either a
missing dict key (scraped input) or a NaN cell (stored frame). -/
structure KRow where
  hcp_id : Int
  name : String
  specialty : String
  city : String
  preferred_channel : String
  contacted : Option Bool
deriving DecidableEq, Repr

/-- pandas drop_duplicates on the hcp_id column with keep=first, as used
on the concatenated frame in update_kartei: the first row carrying each
hcp_id survives, later ones are dropped; seen carries the ids already
encountered. -/
def dropDupFirst (seen : List Int) : List KRow → List KRow
  | [] => []
  | r :: rs =>
    if r.hcp_id ∈ seen then dropDupFirst seen rs
    else r :: dropDupFirst (r.hcp_id :: seen) rs

/-- Embedding of update_kartei (src/tools/record_tool.py lines 3-25).
pd.DataFrame(scraped_data) has a contacted column exactly when some
scraped dict carries the key; only when the whole column is absent does
the source assign False to it, so with the column present a row missing
the key keeps a NaN cell (none here).  Then the existing frame and the
new one are concatenated (existing rows first) and deduplicated on
hcp_id with keep=first, and the result is written back. -/
def update_kartei (kartei : List KRow) (scraped : List KRow) : List KRow :=
  let hasContactedColumn : Bool := scraped.any (fun s => s.contacted.isSome)
  let new_rows : List KRow := scraped.map (fun s =>
    { s with contacted := if hasContactedColumn then s.contacted else some false })
  dropDupFirst [] (kartei ++ new_rows)

/-- dropDupFirst output has pairwise distinct ids, none of them in seen. -/
theorem dropDupFirst_nodup (l : List KRow) :
    ∀ seen : List Int,
      ((dropDupFirst seen l).map (fun r => r.hcp_id)).Nodup ∧
      ∀ r ∈ dropDupFirst seen l, r.hcp_id ∉ seen := by
  induction l with
  | nil => intro seen; simp [dropDupFirst]
  | cons r rs ih =>
    intro seen
    by_cases hmem : r.hcp_id ∈ seen
    · simp only [dropDupFirst, hmem, if_true]
      refine ⟨(ih seen).1, fun x hx => (ih seen).2 x hx⟩
    · simp only [dropDupFirst, hmem, if_false]
      obtain ⟨ihn, ihs⟩ := ih (r.hcp_id :: seen)
      refine ⟨?_, ?_⟩
      · simp only [List.map_cons, List.nodup_cons]
        refine ⟨?_, ihn⟩
        intro hcontra
        obtain ⟨x, hx, hxid⟩ := List.mem_map.mp hcontra
        exact ihs x hx (by rw [hxid]; exact List.mem_cons_self _ _)
      · intro x hx
        rcases List.mem_cons.mp hx with hx | hx
        · rw [hx]; exact hmem
        · exact fun hc => ihs x hx (List.mem_cons_of_mem _ hc)

/-- dropDupFirst only consults membership of seen. -/
theorem dropDupFirst_congr (l : List KRow) :
    ∀ s1 s2 : List Int, (∀ x, x ∈ s1 ↔ x ∈ s2) →
      dropDupFirst s1 l = dropDupFirst s2 l := by
  induction l with
  | nil => intro s1 s2 _; rfl
  | cons r rs ih =>
    intro s1 s2 hs
    by_cases hmem : r.hcp_id ∈ s1
    · simp only [dropDupFirst, hmem, (hs _).mp hmem, if_true]
      exact ih s1 s2 hs
    · have hmem2 : r.hcp_id ∉ s2 := fun hc => hmem ((hs _).mpr hc)
      simp only [dropDupFirst, hmem, hmem2, if_false]
      refine congrArg _ (ih _ _ ?_)
      intro x
      simp only [List.mem_cons]
      exact or_congr Iff.rfl (hs x)

/-- Rows surviving dropDupFirst come from the input list. -/
theorem dropDupFirst_subset (l : List KRow) :
    ∀ seen r, r ∈ dropDupFirst seen l → r ∈ l := by
  induction l with
  | nil => intro seen r h; simp [dropDupFirst] at h
  | cons a rs ih =>
    intro seen r h
    by_cases hmem : a.hcp_id ∈ seen
    · simp only [dropDupFirst, hmem, if_true] at h
      exact List.mem_cons_of_mem _ (ih seen r h)
    · simp only [dropDupFirst, hmem, if_false] at h
      rcases List.mem_cons.mp h with h | h
      · exact h ▸ List.mem_cons_self _ _
      · exact List.mem_cons_of_mem _ (ih _ r h)

/-- A block with fresh, pairwise distinct ids passes through dropDupFirst
untouched, in front of the deduplicated remainder. -/
theorem dropDupFirst_append (a : List KRow) :
    ∀ (seen : List Int) (m : List KRow),
      (∀ r ∈ a, r.hcp_id ∉ seen) →
      ((a.map (fun r => r.hcp_id)).Nodup) →
      dropDupFirst seen (a ++ m) =
        a ++ dropDupFirst (a.map (fun r => r.hcp_id) ++ seen) m := by
  induction a with
  | nil => intro seen m _ _; rfl
  | cons r rs ih =>
    intro seen m hfresh hnodup
    rw [List.map_cons, List.nodup_cons] at hnodup
    obtain ⟨hrnotin, hnodup'⟩ := hnodup
    have hr : r.hcp_id ∉ seen := hfresh r (List.mem_cons_self _ _)
    have hfresh' : ∀ x ∈ rs, x.hcp_id ∉ r.hcp_id :: seen := by
      intro x hx
      simp only [List.mem_cons]
      push_neg
      exact ⟨fun heq => hrnotin (heq ▸ List.mem_map_of_mem (fun y => y.hcp_id) hx),
        hfresh x (List.mem_cons_of_mem _ hx)⟩
    have hstep : dropDupFirst seen ((r :: rs) ++ m) =
        r :: dropDupFirst (r.hcp_id :: seen) (rs ++ m) := by
      rw [List.cons_append]
      show (if r.hcp_id ∈ seen then dropDupFirst seen (rs ++ m)
          else r :: dropDupFirst (r.hcp_id :: seen) (rs ++ m)) =
        r :: dropDupFirst (r.hcp_id :: seen) (rs ++ m)
      rw [if_neg hr]
    rw [hstep, ih (r.hcp_id :: seen) m hfresh' hnodup', List.cons_append,
      List.map_cons]
    refine congrArg _ (congrArg _ (dropDupFirst_congr m _ _ ?_))
    intro x
    simp only [List.mem_append, List.mem_cons]
    tauto

/-- C9 counterexample: with a scraped list in which one entry carries a
contacted value and another does not, the entry missing the field is
stored with a missing (NaN) cell, not with contacted = false, because the
source only assigns False when the whole contacted column is absent. -/
theorem update_kartei_missing_contacted_counterexample :
    update_kartei []
        [⟨1, "A", "C", "B", "email", some true⟩,
         ⟨2, "D", "C", "B", "email", none⟩] =
      [⟨1, "A", "C", "B", "email", some true⟩,
       ⟨2, "D", "C", "B", "email", none⟩] ∧
    ((⟨2, "D", "C", "B", "email", none⟩ : KRow).contacted ≠ some false) := by
  decide

/-- C9 (amended): update_kartei always yields a store with pairwise
distinct hcp_id values; when the existing kartei has distinct ids it is
preserved verbatim as a prefix and every added row has an id absent from
the kartei (existing rows are never overwritten); and when no scraped
entry carries a contacted value, every added row is stored with
contacted = false. -/
theorem update_kartei_invariants (kartei scraped : List KRow) :
    (((update_kartei kartei scraped).map (fun r => r.hcp_id)).Nodup) ∧
    ((kartei.map (fun r => r.hcp_id)).Nodup →
      ∃ rest, update_kartei kartei scraped = kartei ++ rest ∧
        ∀ r ∈ rest, ∀ k ∈ kartei, r.hcp_id ≠ k.hcp_id) ∧
    ((∀ s ∈ scraped, s.contacted = none) →
      ∀ r ∈ update_kartei kartei scraped,
        r ∈ kartei ∨ r.contacted = some false) := by
  have hu : update_kartei kartei scraped =
      dropDupFirst [] (kartei ++ scraped.map (fun s =>
        { s with contacted :=
            if scraped.any (fun x => x.contacted.isSome) then s.contacted
            else some false })) := rfl
  refine ⟨?_, ?_, ?_⟩
  · rw [hu]
    exact (dropDupFirst_nodup _ []).1
  · intro hnd
    rw [hu, dropDupFirst_append _ [] _ (fun r _ => List.not_mem_nil _) hnd]
    refine ⟨_, rfl, ?_⟩
    intro r hr k hk heq
    have hnotin := (dropDupFirst_nodup _ _).2 r hr
    apply hnotin
    rw [List.mem_append]
    exact Or.inl (by rw [heq]; exact List.mem_map_of_mem _ hk)
  · intro hall
    have hcol : scraped.any (fun x => x.contacted.isSome) = false := by
      simp only [List.any_eq_false]
      intro s hs
      simp [hall s hs]
    intro r hr
    rw [hu] at hr
    have hsrc := dropDupFirst_subset _ [] r hr
    rcases List.mem_append.mp hsrc with h | h
    · exact Or.inl h
    · obtain ⟨s, _, rfl⟩ := List.mem_map.mp h
      right
      simp [hcol]

/-- A fixture kartei store for the concrete instantiation. -/
def kartei0 : List KRow := [⟨1, "A", "C", "B", "email", some true⟩]

/-- A fixture scraped list, all entries missing the contacted field, one
sharing its hcp_id with kartei0. -/
def scraped0 : List KRow :=
  [⟨1, "X", "C", "B", "email", none⟩, ⟨2, "D", "C", "B", "email", none⟩]

theorem update_kartei_invariants_witness :
    (((update_kartei kartei0 scraped0).map (fun r => r.hcp_id)).Nodup) ∧
    (∃ rest, update_kartei kartei0 scraped0 = kartei0 ++ rest ∧
        ∀ r ∈ rest, ∀ k ∈ kartei0, r.hcp_id ≠ k.hcp_id) ∧
    (∀ r ∈ update_kartei kartei0 scraped0,
        r ∈ kartei0 ∨ r.contacted = some false) :=
  ⟨(update_kartei_invariants kartei0 scraped0).1,
   (update_kartei_invariants kartei0 scraped0).2.1 (by decide),
   (update_kartei_invariants kartei0 scraped0).2.2 (by decide)⟩

end Kartei

namespace PubMed

/-- One MEDLINE record as produced by Bio.Medline.parse (a dict;
src/tools/nova.py).  Option models a key absent from the dict, matching
the .get defaults taken in _parse_article. -/
structure MedlineRecord where
  PMID : Option String
  TI : Option String
  AU : Option (List String)
  DP : Option String
  EDAT : Option String
  AB : Option String
deriving DecidableEq, Repr

/-- The article shape PubMedSearchTool._parse_article returns. -/
structure Article where
  pmid : String
  title : String
  authors : List String
  date : String
  abstract : String
  url : String
deriving DecidableEq, Repr

/-- Embedding of PubMedSearchTool._parse_article (src/tools/nova.py
lines 58-98): field extraction with defaults, URL construction guarded
by Python truthiness of pmid, and the skip of records missing both PMID
and a title. -/
def parse_article (m : MedlineRecord) : Option Article :=
  let pmid := m.PMID.getD ""
  let title := m.TI.getD "N/A"
  let authors := m.AU.getD []
  let date := m.DP.getD (m.EDAT.getD "N/A")
  let abstract := m.AB.getD "N/A"
  let url := if pmid ≠ "" then "https://pubmed.ncbi.nlm.nih.gov/" ++ pmid ++ "/"
    else "N/A"
  if pmid = "" ∧ title = "N/A" then none
  else some ⟨pmid, title, authors, date, abstract, url⟩

/-- Embedding of PubMedSearchTool.search (src/tools/nova.py lines
100-187).  The two Entrez round-trips are oracles: esearch yields the id
list for a query and retmax, efetch yields the MEDLINE records for an id
list; an Except.error models any exception the call raises (HTTPError,
URLError, RuntimeError from Entrez.read, or anything else) - every one
of the source's except clauses returns the empty list, so the embedded
function is total. -/
def search (esearch : String → Nat → Except String (List String))
    (efetch : List String → Except String (List MedlineRecord))
    (query : String) (max_results : Nat) : List Article :=
  match esearch query max_results with
  | Except.error _ => []
  | Except.ok id_list =>
    if id_list.isEmpty then []
    else
      match efetch id_list with
      | Except.error _ => []
      | Except.ok records => records.filterMap parse_article

/-- C7: the literature search returns the parsed article list on success
and the empty list when the query finds no ids or when either Entrez
round-trip raises; no error escapes (the embedding is a total function
into List Article). -/
theorem pubmed_search_error_empty
    (es : String → Nat → Except String (List String))
    (ef : List String → Except String (List MedlineRecord))
    (q : String) (n : Nat) :
    (∀ e, es q n = Except.error e → search es ef q n = []) ∧
    (∀ ids, es q n = Except.ok ids → ids = [] → search es ef q n = []) ∧
    (∀ ids e, es q n = Except.ok ids → ef ids = Except.error e →
        search es ef q n = []) ∧
    (∀ ids records, es q n = Except.ok ids → ids ≠ [] →
        ef ids = Except.ok records →
        search es ef q n = records.filterMap parse_article) := by
  refine ⟨?_, ?_, ?_, ?_⟩
  · intro e he
    simp [search, he]
  · intro ids hok hnil
    simp [search, hok, hnil]
  · intro ids e hok hef
    rcases Decidable.em (ids = []) with hnil | hnil
    · simp [search, hok, hnil]
    · simp [search, hok, hef, List.isEmpty_iff, hnil]
  · intro ids records hok hnil hef
    simp [search, hok, hef, List.isEmpty_iff, hnil]

theorem pubmed_search_error_empty_witness :
    ((fun (_ : String) (_ : Nat) =>
        (Except.error "HTTP Error 500 Internal Server Error" :
          Except String (List String))) "PCSK9" 10 =
      Except.error "HTTP Error 500 Internal Server Error") ∧
    search
      (fun _ _ => Except.error "HTTP Error 500 Internal Server Error")
      (fun _ => Except.ok []) "PCSK9" 10 = [] :=
  ⟨rfl,
    (pubmed_search_error_empty
        (fun _ _ => Except.error "HTTP Error 500 Internal Server Error")
        (fun _ => Except.ok []) "PCSK9" 10).1
      "HTTP Error 500 Internal Server Error" rfl⟩

end PubMed

namespace Maps

/-- The record built for one place from the Places details response
(src/tools/google_maps_finder.py): result.get of name,
formatted_phone_number and website, each possibly absent. -/
structure PlaceDetails where
  name : Option String
  phone : Option String
  website : Option String
deriving DecidableEq, Repr

/-- Embedding of GoogleMapsFinder.search_and_get_details
(src/tools/google_maps_finder.py lines 8-25).  The client is an oracle:
places yields the place_id list for a text query, placeDetails yields
the details for a place_id (none models an empty or missing result dict,
which the source skips with the `if result` guard).  The source builds
the output list and returns output[:5]. -/
def search_and_get_details (places : String → List String)
    (placeDetails : String → Option PlaceDetails)
    (query : String) (location : String := "") : List PlaceDetails :=
  let search_query : String :=
    if location ≠ "" then query ++ " in " ++ location else query
  let output : List PlaceDetails :=
    (places search_query).filterMap placeDetails
  output.take 5

/-- C8: for every query and location, and however many places the
underlying lookup yields, the places lookup returns at most 5 records. -/
theorem maps_search_result_cap (places : String → List String)
    (placeDetails : String → Option PlaceDetails)
    (query location : String) :
    (search_and_get_details places placeDetails query location).length ≤ 5 := by
  simp only [search_and_get_details]
  exact List.length_take_le 5 _

end Maps

namespace Loop

/-- Raw tool-call arguments: an untyped name-to-value mapping. -/
abbrev Args := List (String × String)

/-- A tool dispatch outcome fed back into the conversation: ok with the
value, or not ok with the error message. -/
structure ToolResult where
  ok : Bool
  payload : String
deriving DecidableEq, Repr

/-- The parsed intent of one model reply: a tool call, a final answer,
or neither (a parse failure). -/
inductive ModelOutput where
  | toolCall (tool_name : String) (arguments : Args)
  | finalAnswer (text : String)
  | unparseable (raw : String)
deriving DecidableEq, Repr

/-- One transcript entry. -/
inductive Turn where
  | user (content : String)
  | assistant (content : String)
  | toolResult (tool_name : String) (result : ToolResult)
  | corrective (note : String)
deriving DecidableEq, Repr

/-- Per-run status. -/
inductive Status where
  | running
  | completed
  | exhausted
  | failed
deriving DecidableEq, Repr

/-- What one run ends with: the returned text, the final RunState
bookkeeping and the transcript. -/
structure RunResult where
  output : String
  iteration_count : Nat
  status : Status
  transcript : List Turn
deriving DecidableEq, Repr

/-- Modelled from the spec: the fixed apology message returned when the
iteration budget is eaten by parse failures (the spec fixes only that it
is one constant string). -/
def apologyMessage : String :=
  "I am sorry - I could not produce a valid action for your request."

/-- Modelled from the spec: the system-generated message stating the
budget was exhausted by tool calls. -/
def exhaustedMessage : String :=
  "The iteration budget was exhausted before a final answer was produced."

/-- Modelled from the spec: the corrective instruction appended after a
parse failure, explaining the expected format. -/
def correctiveNote : String :=
  "Invalid output format. Reply with a tool call or a final answer."

/-- Modelled from the spec: the ToolDispatcher boundary of section 4.2
(the dispatch code itself lives in the LangChain framework, outside this
repository).  Any exception raised by the implementation (an
Except.error here) is caught and becomes ToolResult with ok = false and
the message; a success becomes ok = true with the value. -/
def dispatchTool (impl : Args → Except String String) (args : Args) : ToolResult :=
  match impl args with
  | Except.ok v => ToolResult.mk true v
  | Except.error e => ToolResult.mk false e

/-- A dispatcher over a registry of implementations, every tool routed
through the catching dispatchTool boundary. -/
def dispatchFromRegistry (registry : String → Args → Except String String) :
    String → Args → ToolResult :=
  fun tool_name args => dispatchTool (registry tool_name) args

/-- Modelled from the spec: the OrchestrationLoop body of section 4.4
(the loop code itself is LangChain's AgentExecutor, outside this
repository; the repository only configures it in src/agent.py lines
67-74 with handle_parsing_errors=True and max_iterations=5).  fuel is
the remaining budget (max_iterations - iteration_count), so the
recursion is structurally terminating; count is RunState.iteration_count.
One model round-trip per step: a model error propagates (the API call
raised), a final answer completes the run, a parse failure appends a
corrective note and burns one iteration (status failed with the apology
once the budget is reached), a tool call dispatches, appends the
ToolResult turn and burns one iteration (status exhausted once the
budget is reached). -/
def runAux (model : List Turn → Except String ModelOutput)
    (dispatch : String → Args → ToolResult) (max_iterations : Nat) :
    Nat → Nat → List Turn → Except String RunResult
  | 0, count, ts => Except.ok ⟨apologyMessage, count, Status.failed, ts⟩
  | fuel + 1, count, ts =>
    match model ts with
    | Except.error e => Except.error e
    | Except.ok (ModelOutput.finalAnswer text) =>
      Except.ok ⟨text, count, Status.completed, ts ++ [Turn.assistant text]⟩
    | Except.ok (ModelOutput.unparseable _) =>
      if max_iterations ≤ count + 1 then
        Except.ok ⟨apologyMessage, count + 1, Status.failed,
          ts ++ [Turn.corrective correctiveNote]⟩
      else
        runAux model dispatch max_iterations fuel (count + 1)
          (ts ++ [Turn.corrective correctiveNote])
    | Except.ok (ModelOutput.toolCall tool_name args) =>
      if max_iterations ≤ count + 1 then
        Except.ok ⟨exhaustedMessage, count + 1, Status.exhausted,
          ts ++ [Turn.toolResult tool_name (dispatch tool_name args)]⟩
      else
        runAux model dispatch max_iterations fuel (count + 1)
          (ts ++ [Turn.toolResult tool_name (dispatch tool_name args)])

/-- Modelled from the spec: OrchestrationLoop.run (section 4.4, step 1
then the loop): append the user turn to the session history and start
with iteration_count = 0 and the full budget as fuel. -/
def run (model : List Turn → Except String ModelOutput)
    (dispatch : String → Args → ToolResult) (max_iterations : Nat)
    (utterance : String) (history : List Turn := []) :
    Except String RunResult :=
  runAux model dispatch max_iterations max_iterations 0
    (history ++ [Turn.user utterance])

/-- Embedding of NovaAgent.run (src/agent.py lines 157-158): invoke the
executor and take its output field; any exception of the executor or the
model client propagates to the caller. -/
def novaAgentRun (model : List Turn → Except String ModelOutput)
    (dispatch : String → Args → ToolResult) (history : List Turn)
    (query : String) : Except String String :=
  (run model dispatch 5 query history).map (fun r => r.output)

/-- Embedding of process_message (src/app.py lines 11-17), the dashboard
boundary: every exception from nova.run is caught and turned into the
apology string; the Except-valued codomain makes the absence of a raise
expressible (the result is always Except.ok).  The console REPL in
src/agent.py lines 174-179 applies the same catch-and-respond pattern. -/
def process_message (runNova : String → Except String String)
    (message : String) : Except String String :=
  match runNova message with
  | Except.ok response => Except.ok response
  | Except.error e =>
    Except.ok ("I apologize, but I encountered an error: " ++ e ++
      ". Let\x27s try a different approach.")

/-- C1: whatever the model and the tools do (model errors, tool errors,
budget exhaustion included), a dashboard message never sees a raised
error: process_message over NovaAgent.run always resolves to an
Except.ok human-readable string. -/
theorem process_message_never_raises
    (model : List Turn → Except String ModelOutput)
    (dispatch : String → Args → ToolResult) (history : List Turn)
    (message : String) :
    ∃ s : String,
      process_message (novaAgentRun model dispatch history) message =
        Except.ok s := by
  cases h : novaAgentRun model dispatch history message with
  | ok response => exact ⟨response, by simp [process_message, h]⟩
  | error e =>
    exact ⟨"I apologize, but I encountered an error: " ++ e ++
      ". Let\x27s try a different approach.", by simp [process_message, h]⟩

/-- With a model that always emits unparseable text, every loop step
appends one corrective note until the budget is reached, ending failed
with the apology and iteration_count = max_iterations. -/
theorem runAux_unparseable (raw : String)
    (dispatch : String → Args → ToolResult) (maxI : Nat) :
    ∀ fuel count ts, count + fuel = maxI → 0 < fuel →
      runAux (fun _ => Except.ok (ModelOutput.unparseable raw)) dispatch
          maxI fuel count ts =
        Except.ok ⟨apologyMessage, maxI, Status.failed,
          ts ++ List.replicate fuel (Turn.corrective correctiveNote)⟩ := by
  intro fuel
  induction fuel with
  | zero => intro count ts _ hpos; exact absurd hpos (lt_irrefl 0)
  | succ fuel ih =>
    intro count ts hsum _
    by_cases hle : maxI ≤ count + 1
    · have hfuel : fuel = 0 := by omega
      have hcount : count + 1 = maxI := by omega
      subst hfuel
      simp [runAux, hle, hcount]
    · have hstep :
          runAux (fun _ => Except.ok (ModelOutput.unparseable raw)) dispatch
              maxI (fuel + 1) count ts =
            runAux (fun _ => Except.ok (ModelOutput.unparseable raw)) dispatch
              maxI fuel (count + 1)
              (ts ++ [Turn.corrective correctiveNote]) := by
        simp [runAux, hle]
      rw [hstep, ih (count + 1) _ (by omega) (by omega)]
      simp [List.append_assoc, List.replicate_succ]

/-- C2: a model that always returns unparseable output makes run
terminate (the loop is a total function) after exactly max_iterations
corrective attempts, with status failed, iteration_count =
max_iterations and the fixed apology string as output. -/
theorem run_unparseable_exhausts_budget (raw : String)
    (dispatch : String → Args → ToolResult) (max_iterations : Nat)
    (h : 0 < max_iterations) (utterance : String) (history : List Turn) :
    run (fun _ => Except.ok (ModelOutput.unparseable raw)) dispatch
        max_iterations utterance history =
      Except.ok ⟨apologyMessage, max_iterations, Status.failed,
        (history ++ [Turn.user utterance]) ++
          List.replicate max_iterations (Turn.corrective correctiveNote)⟩ := by
  unfold run
  exact runAux_unparseable raw dispatch max_iterations max_iterations 0 _
    (by omega) h

theorem run_unparseable_exhausts_budget_witness :
    0 < 5 ∧
    run (fun _ => Except.ok (ModelOutput.unparseable "not an action"))
        (fun _ _ => ToolResult.mk false "") 5 "hi" [] =
      Except.ok ⟨apologyMessage, 5, Status.failed,
        ([] ++ [Turn.user "hi"]) ++
          List.replicate 5 (Turn.corrective correctiveNote)⟩ :=
  ⟨by decide,
    run_unparseable_exhausts_budget "not an action"
      (fun _ _ => ToolResult.mk false "") 5 (by decide) "hi" []⟩

/-- C3: when the model requests a tool whose implementation raises, the
dispatcher converts the exception into ToolResult with ok = false and
the message, that ToolResult is appended to the transcript, and (budget
permitting) the loop proceeds from the advanced transcript - no crash,
no stuck state. -/
theorem tool_error_caught_and_run_continues
    (registry : String → Args → Except String String)
    (model : List Turn → Except String ModelOutput)
    (maxI fuel count : Nat) (ts : List Turn) (tool_name : String)
    (args : Args) (e : String)
    (himpl : registry tool_name args = Except.error e)
    (hmodel : model ts = Except.ok (ModelOutput.toolCall tool_name args))
    (hbudget : count + 1 < maxI) :
    dispatchFromRegistry registry tool_name args = ToolResult.mk false e ∧
    runAux model (dispatchFromRegistry registry) maxI (fuel + 1) count ts =
      runAux model (dispatchFromRegistry registry) maxI fuel (count + 1)
        (ts ++ [Turn.toolResult tool_name (ToolResult.mk false e)]) := by
  have hd : dispatchFromRegistry registry tool_name args =
      ToolResult.mk false e := by
    simp [dispatchFromRegistry, dispatchTool, himpl]
  refine ⟨hd, ?_⟩
  have hle : ¬ maxI ≤ count + 1 := by omega
  simp [runAux, hmodel, hle, hd]

theorem tool_error_caught_and_run_continues_witness :
    ((fun (_ : String) (_ : Args) =>
        (Except.error "boom" : Except String String)) "RecordContact" [] =
      Except.error "boom") ∧
    ((fun (_ : List Turn) =>
        (Except.ok (ModelOutput.toolCall "RecordContact" []) :
          Except String ModelOutput)) [Turn.user "hi"] =
      Except.ok (ModelOutput.toolCall "RecordContact" ([] : Args))) ∧
    (0 + 1 < 5) ∧
    (dispatchFromRegistry (fun _ _ => Except.error "boom") "RecordContact" [] =
        ToolResult.mk false "boom" ∧
      runAux (fun _ => Except.ok (ModelOutput.toolCall "RecordContact" []))
          (dispatchFromRegistry (fun _ _ => Except.error "boom")) 5 (4 + 1) 0
          [Turn.user "hi"] =
        runAux (fun _ => Except.ok (ModelOutput.toolCall "RecordContact" []))
          (dispatchFromRegistry (fun _ _ => Except.error "boom")) 5 4 (0 + 1)
          ([Turn.user "hi"] ++
            [Turn.toolResult "RecordContact" (ToolResult.mk false "boom")])) :=
  ⟨rfl, rfl, by decide,
    tool_error_caught_and_run_continues
      (fun _ _ => Except.error "boom")
      (fun _ => Except.ok (ModelOutput.toolCall "RecordContact" []))
      5 4 0 [Turn.user "hi"] "RecordContact" [] "boom" rfl rfl (by decide)⟩

end Loop
